import Mathlib

/-!
# MemoryPool (Kama_memoryPool, v1): size-class routing and typed helpers

Shallow embedding of `src/v1/include/MemoryPool.h`.

* Addresses (`void*`, `Slot*`, `T*`) are natural numbers, `0` is `nullptr`.
  Pointer arithmetic is done in `Nat` (an allocation never wraps around the
  address space).
* `size_t` is 64 bit wide: the arithmetic of the index expression
  `((size + 7) / SLOT_BASE_SIZE) - 1` is taken modulo `2 ^ 64`, and the
  conversion to the `int` parameter of `getMemoryPool` modulo `2 ^ 32`
  (two's complement).
* Effects are made explicit: every call of `operator new`, `operator delete`,
  `MemoryPool::allocate`, `MemoryPool::deallocate`, of a constructor and of a
  destructor appends one `Event` to a trace carried by the state.
* Undefined behaviour (an index outside the pool table) is the result `none`.
* `operatorNew` hands the answer of the system allocator to its caller as it is. The throwing
  `operator new` of C++ never returns null: the definitions under `Throwing` follow the same
  code with the answer `0` of the allocator read as exhaustion, on which the call is left by
  `std::bad_alloc`; where the allocator answers a non-null address the two agree.
* The member functions of `MemoryPool`, `HashBucket::getMemoryPool` and
  `HashBucket::initMemoryPool` are only declared in the header; their bodies
  are modelled from the specification and marked as such.
-/

namespace Kama_memoryPool

/-! ## Constants -/

/-- Number of entries of the pool table: `#define MEMORY_POOL_NUM 64`. -/
def MEMORY_POOL_NUM : Nat := 64

/-- Granularity of the size classes: `#define SLOT_BASE_SIZE 8`. -/
def SLOT_BASE_SIZE : Nat := 8

/-- Largest pooled size: `#define MAX_SLOT_SIZE 512`. -/
def MAX_SLOT_SIZE : Nat := 512

/-- Modulus of `size_t` arithmetic (64 bit). -/
def SIZE_T_MOD : Nat := 2 ^ 64

/-- Modulus of `int` (32 bit). -/
def INT_MOD : Nat := 2 ^ 32

/-- The null pointer. -/
def nullptr : Nat := 0

/-- Size of a pointer and alignment of `Slot` (one atomic pointer) on the 64 bit target. -/
def SLOT_ALIGN : Nat := 8

/-- Default argument of the `MemoryPool` constructor: `size_t BlockSize = 4096`. -/
def DEFAULT_BLOCK_SIZE : Nat := 4096

/-! ## Machine integers -/

/-- Conversion of a `size_t` value to `int`: reduction modulo `2 ^ 32`, read as two's complement. -/
def toInt (x : Nat) : Int :=
  if x % INT_MOD < INT_MOD / 2 then ((x % INT_MOD : Nat) : Int)
  else ((x % INT_MOD : Nat) : Int) - (INT_MOD : Int)

/-- The expression `((size + 7) / SLOT_BASE_SIZE) - 1` of `useMemory` and `freeMemory`,
evaluated in `size_t`: the sum and the subtraction wrap around modulo `2 ^ 64`. -/
def slotIndex (size : Nat) : Nat :=
  (((size + 7) % SIZE_T_MOD) / SLOT_BASE_SIZE + SIZE_T_MOD - 1) % SIZE_T_MOD

/-- The argument `getMemoryPool` receives: the `size_t` value of `slotIndex` converted to `int`. -/
def poolIndex (size : Nat) : Int :=
  toInt (slotIndex size)

/-! ## Effects -/

/-- Observable calls, in the order in which they are made. `α` is the type of the
constructor arguments (`Args&&... args`). -/
inductive Event (α : Type) where
  /-- Call `operator new(size)`. -/
  | operatorNew (size : Nat)
  /-- Call `operator delete(ptr)`. -/
  | operatorDelete (ptr : Nat)
  /-- Call `getMemoryPool(index).allocate()`. -/
  | allocate (index : Int)
  /-- Call `getMemoryPool(index).deallocate(ptr)`. -/
  | deallocate (index : Int) (ptr : Nat)
  /-- Placement construction `new(p) T(args...)`. -/
  | construct (ptr : Nat) (args : α)
  /-- Destructor call `p->~T()`. -/
  | destruct (ptr : Nat)
  deriving DecidableEq, Repr

/-- The part of the machine outside the pool table: the link words stored in memory, the
system allocator and the trace of calls. -/
structure Env (α : Type) where
  /-- Contents of memory read as a link: `next a` is `reinterpret_cast<Slot*>(a)->next`. -/
  next : Nat → Nat
  /-- The system allocator: `fresh n` is the address returned by call number `n` of `operator new`. -/
  fresh : Nat → Nat
  /-- Number of calls of `operator new` made so far. -/
  newCalls : Nat
  /-- Calls made so far, oldest first. -/
  trace : List (Event α)

/-- Append an event to the trace. -/
def Env.log {α : Type} (ev : Event α) (e : Env α) : Env α :=
  { e with trace := e.trace ++ [ev] }

/-- Global `operator new(size)`: returns the next address of the system allocator. -/
def operatorNew {α : Type} (size : Nat) (e : Env α) : Nat × Env α :=
  (e.fresh e.newCalls, { e.log (Event.operatorNew size) with newCalls := e.newCalls + 1 })

/-- Global `operator delete(ptr)`. -/
def operatorDelete {α : Type} (ptr : Nat) (e : Env α) : Env α :=
  e.log (Event.operatorDelete ptr)

/-! ## MemoryPool -/

/-- Data members of `class MemoryPool`, lines 43-50 (the mutex carries no data in a sequential
run). `BlockSize_` and `SlotSize_` are declared `int`; they only hold the positive sizes given
to the constructor and to `init`, far below `2 ^ 31`. -/
structure MemoryPool where
  /-- Size of a block in bytes. -/
  BlockSize_ : Nat
  /-- Size of a slot in bytes. -/
  SlotSize_ : Nat
  /-- Most recently allocated block, head of the block chain. -/
  firstBlock_ : Nat
  /-- Next slot of the current block that was never handed out. -/
  curSlot_ : Nat
  /-- Head of the free list. -/
  freeList_ : Nat
  /-- End marker of the current block. -/
  lastSlot_ : Nat
  deriving DecidableEq, Repr

namespace MemoryPool

/-- Modelled from the spec: the constructor `MemoryPool(size_t BlockSize = 4096)`, whose body is
not in the header ("resets all pointers to empty/uninitialized state"). -/
def ctor (BlockSize : Nat) : MemoryPool :=
  { BlockSize_ := BlockSize, SlotSize_ := 0, firstBlock_ := nullptr, curSlot_ := nullptr,
    freeList_ := nullptr, lastSlot_ := nullptr }

/-- Modelled from the spec: `MemoryPool::init(size_t)`, whose body is not in the header
("sets the pool's fixed slot size ...; resets all pointers to empty/uninitialized state"). -/
def init (size : Nat) (this : MemoryPool) : MemoryPool :=
  { this with SlotSize_ := size, firstBlock_ := nullptr, curSlot_ := nullptr,
              freeList_ := nullptr, lastSlot_ := nullptr }

/-- Modelled from the spec: `MemoryPool::padPointer(char* p, size_t align)`, whose body is not in
the header: the number of bytes to add to `p` to reach an address divisible by `align`. -/
def padPointer (p align : Nat) : Nat :=
  if p % align = 0 then 0 else align - p % align

/-- Modelled from the spec: `MemoryPool::pushFreeList(Slot* slot)`, whose body is not in the
header: "read current head h; set slot's next-pointer to h; atomically replace head from h to
slot". Without another thread the compare-and-swap succeeds at the first attempt. -/
def pushFreeList {α : Type} (slot : Nat) (this : MemoryPool) (e : Env α) : MemoryPool × Env α :=
  ({ this with freeList_ := slot },
   { e with next := fun a => if a = slot then this.freeList_ else e.next a })

/-- Modelled from the spec: `MemoryPool::popFreeList()`, whose body is not in the header:
"read current head h; if h is empty, report no free slot; otherwise read h's next-pointer n and
atomically replace head from h to n; on success return h". Without another thread the
compare-and-swap succeeds at the first attempt. -/
def popFreeList {α : Type} (this : MemoryPool) (e : Env α) : Nat × MemoryPool :=
  if this.freeList_ = nullptr then (nullptr, this)
  else (this.freeList_, { this with freeList_ := e.next this.freeList_ })

/-- Modelled from the spec: `MemoryPool::allocateNewBlock()`, whose body is not in the header:
"allocate a new block from the underlying system allocator, sized blockSize, link it behind the
previous block, and compute the first aligned slot position as the new curSlot, with lastSlot set
to the last position in the block that can hold a full slot"; the first machine word of a block
is reserved for the link to the previous block. -/
def allocateNewBlock {α : Type} (this : MemoryPool) (e : Env α) : MemoryPool × Env α :=
  let r := operatorNew this.BlockSize_ e
  let newBlock := r.1
  let body := newBlock + SLOT_ALIGN
  ({ this with firstBlock_ := newBlock,
               curSlot_ := body + padPointer body SLOT_ALIGN,
               lastSlot_ := newBlock + this.BlockSize_ - this.SlotSize_ },
   { r.2 with next := fun a => if a = newBlock then this.firstBlock_ else r.2.next a })

/-- Modelled from the spec: `MemoryPool::allocate()`, whose body is not in the header:
"1. Attempt a pop from the free list. If it yields a slot, return it immediately. 2. Otherwise
..., if curSlot == lastSlot (block exhausted or no block yet), allocate a new block ...
3. Take the slot at curSlot, advance curSlot by slotSize, and return it." -/
def allocate {α : Type} (this : MemoryPool) (e : Env α) : Nat × MemoryPool × Env α :=
  let r := popFreeList this e
  if r.1 ≠ nullptr then (r.1, r.2, e)
  else
    let g := if this.curSlot_ = this.lastSlot_ then allocateNewBlock this e else (this, e)
    (g.1.curSlot_, { g.1 with curSlot_ := g.1.curSlot_ + g.1.SlotSize_ }, g.2)

/-- Modelled from the spec: `MemoryPool::deallocate(void*)`, whose body is not in the header:
"pushes ptr back onto the free list via the lock-free push algorithm. No validation is
performed". -/
def deallocate {α : Type} (ptr : Nat) (this : MemoryPool) (e : Env α) : MemoryPool × Env α :=
  pushFreeList ptr this e

end MemoryPool

/-! ## HashBucket -/

/-- State of the program: the static table of `MEMORY_POOL_NUM` pools behind
`HashBucket::getMemoryPool`, and the rest of the machine. -/
structure HashBucket (α : Type) where
  /-- The pool table `memoryPool[MEMORY_POOL_NUM]`. -/
  memoryPool : Fin MEMORY_POOL_NUM → MemoryPool
  /-- Memory links, system allocator and trace. -/
  env : Env α

namespace HashBucket

/-- Modelled from the spec: `HashBucket::getMemoryPool(int index)`, whose body is not in the
header: the table is "addressed only by index". The reference it returns is the table entry;
an index outside `0 .. MEMORY_POOL_NUM - 1` denotes no entry (undefined behaviour). -/
def getMemoryPool (index : Int) : Option (Fin MEMORY_POOL_NUM) :=
  if h : 0 ≤ index ∧ index < (MEMORY_POOL_NUM : Int) then
    some ⟨index.toNat, by omega⟩
  else none

/-- Store a pool back into the table entry a reference denotes. -/
def setPool {α : Type} (i : Fin MEMORY_POOL_NUM) (pool : MemoryPool) (hb : HashBucket α) :
    Fin MEMORY_POOL_NUM → MemoryPool :=
  fun j => if j = i then pool else hb.memoryPool j

/-- Modelled from the spec: `HashBucket::initMemoryPool()`, whose body is not in the header:
"table entry i has slotSize = (i+1) * baseUnit", every pool with the default block size. -/
def initMemoryPool {α : Type} (e : Env α) : HashBucket α :=
  { memoryPool := fun i => MemoryPool.init ((i.val + 1) * SLOT_BASE_SIZE)
                              (MemoryPool.ctor DEFAULT_BLOCK_SIZE),
    env := e }

/-- The function `HashBucket::useMemory(size_t size)`, lines 59-72. -/
def useMemory {α : Type} (size : Nat) (hb : HashBucket α) : Option (Nat × HashBucket α) :=
  if size ≤ 0 then
    some (nullptr, hb)
  else if size > MAX_SLOT_SIZE then
    let r := operatorNew size hb.env
    some (r.1, { hb with env := r.2 })
  else
    match getMemoryPool (poolIndex size) with
    | none => none
    | some i =>
      let r := (hb.memoryPool i).allocate (hb.env.log (Event.allocate (poolIndex size)))
      some (r.1, { memoryPool := setPool i r.2.1 hb, env := r.2.2 })

/-- The function `HashBucket::freeMemory(void* ptr, size_t size)`, lines 74-85. -/
def freeMemory {α : Type} (ptr : Nat) (size : Nat) (hb : HashBucket α) : Option (HashBucket α) :=
  if ptr = nullptr then
    some hb
  else if size > MAX_SLOT_SIZE then
    some { hb with env := operatorDelete ptr hb.env }
  else
    match getMemoryPool (poolIndex size) with
    | none => none
    | some i =>
      let r := (hb.memoryPool i).deallocate ptr
                 (hb.env.log (Event.deallocate (poolIndex size) ptr))
      some { memoryPool := setPool i r.1 hb, env := r.2 }

end HashBucket

/-! ## Typed helpers -/

/-- The function template `newElement<T>(Args&&... args)`, lines 94-104; the type `T` enters
through `sizeof(T)` and its constructor, which is the event `construct`. -/
def newElement {α : Type} (sizeofT : Nat) (args : α) (hb : HashBucket α) :
    Option (Nat × HashBucket α) :=
  match HashBucket.useMemory sizeofT hb with
  | none => none
  | some (p, hb1) =>
    if p ≠ nullptr then
      some (p, { hb1 with env := hb1.env.log (Event.construct p args) })
    else
      some (p, hb1)

/-- The function template `deleteElement<T>(T* p)`, lines 106-116; the destructor of `T` is the
event `destruct`. -/
def deleteElement {α : Type} (sizeofT : Nat) (p : Nat) (hb : HashBucket α) :
    Option (HashBucket α) :=
  if p ≠ nullptr then
    HashBucket.freeMemory p sizeofT { hb with env := hb.env.log (Event.destruct p) }
  else
    some hb

/-! ## Observations and reachable states -/

/-- Recogniser of constructor calls. -/
def Event.isConstruct {α : Type} : Event α → Bool
  | Event.construct _ _ => true
  | _ => false

/-- Recogniser of destructor calls. -/
def Event.isDestruct {α : Type} : Event α → Bool
  | Event.destruct _ => true
  | _ => false

/-- Recogniser of calls that consult an allocator: a pool or the system allocator. -/
def Event.isAllocation {α : Type} : Event α → Bool
  | Event.allocate _ => true
  | Event.operatorNew _ => true
  | _ => false

/-- The calls made on the way from the state `before` to the state `after`. -/
def callsSince {α : Type} (before after : HashBucket α) : List (Event α) :=
  after.env.trace.drop before.env.trace.length

/-- The states a program can be in: the table after `initMemoryPool`, followed by any number
of calls of `useMemory`, `freeMemory`, `newElement` and `deleteElement` with any arguments. -/
inductive Reachable {α : Type} : HashBucket α → Prop where
  | init (e : Env α) : Reachable (HashBucket.initMemoryPool e)
  | useMemory {hb hb1 : HashBucket α} {size p : Nat} :
      Reachable hb → HashBucket.useMemory size hb = some (p, hb1) → Reachable hb1
  | freeMemory {hb hb1 : HashBucket α} {ptr size : Nat} :
      Reachable hb → HashBucket.freeMemory ptr size hb = some hb1 → Reachable hb1
  | newElement {hb hb1 : HashBucket α} {sizeofT p : Nat} {args : α} :
      Reachable hb → newElement sizeofT args hb = some (p, hb1) → Reachable hb1
  | deleteElement {hb hb1 : HashBucket α} {sizeofT p : Nat} :
      Reachable hb → deleteElement sizeofT p hb = some hb1 → Reachable hb1

/-- A concrete machine for examples: empty memory, a system allocator that hands out the
addresses 4096, 8192, ..., no call made yet. -/
def exampleEnv : Env Nat :=
  { next := fun _ => 0, fresh := fun n => 4096 * (n + 1), newCalls := 0, trace := [] }

/-- The pool table right after `initMemoryPool` on the example machine. -/
def exampleBucket : HashBucket Nat :=
  HashBucket.initMemoryPool exampleEnv

/-! ## Runs in which `operator new` throws -/

/-- Ways in which a call ends: it returns a value, it is left by `std::bad_alloc` in some state,
or it has no defined behaviour. -/
inductive Outcome (β σ : Type) where
  /-- The call returns `value`. -/
  | returned (value : β)
  /-- The call is left by the exception `std::bad_alloc`, the machine being in `state`. -/
  | badAlloc (state : σ)
  /-- The call has no defined behaviour. -/
  | undefined

/-- The throwing global `operator new(size)` called on line 64: it never returns null. The
answer `0` of the system allocator is exhaustion, on which the call is left by
`std::bad_alloc`; the call is counted and logged in both cases. -/
def Throwing.operatorNew {α : Type} (size : Nat) (e : Env α) : Outcome (Nat × Env α) (Env α) :=
  if e.fresh e.newCalls = nullptr then
    Outcome.badAlloc (Kama_memoryPool.operatorNew size e).2
  else
    Outcome.returned (Kama_memoryPool.operatorNew size e)

/-- Modelled from the spec: `MemoryPool::allocateNewBlock()` with the throwing `operator new`
("ResourceExhaustion: underlying system allocator cannot supply a new block → propagated as an
allocation failure from the pool upward"): the exception leaves before a member is written. -/
def Throwing.allocateNewBlock {α : Type} (this : MemoryPool) (e : Env α) :
    Outcome (MemoryPool × Env α) (Env α) :=
  match Throwing.operatorNew this.BlockSize_ e with
  | Outcome.returned r =>
    let newBlock := r.1
    let body := newBlock + SLOT_ALIGN
    Outcome.returned
      ({ this with firstBlock_ := newBlock,
                   curSlot_ := body + MemoryPool.padPointer body SLOT_ALIGN,
                   lastSlot_ := newBlock + this.BlockSize_ - this.SlotSize_ },
       { r.2 with next := fun a => if a = newBlock then this.firstBlock_ else r.2.next a })
  | Outcome.badAlloc e1 => Outcome.badAlloc e1
  | Outcome.undefined => Outcome.undefined

/-- Modelled from the spec: `MemoryPool::allocate()` with the throwing `operator new`: the
three steps of `MemoryPool.allocate`; it "fails (process-fatal or propagated
allocation-failure) only if the system allocator cannot satisfy a new block". -/
def Throwing.allocate {α : Type} (this : MemoryPool) (e : Env α) :
    Outcome (Nat × MemoryPool × Env α) (Env α) :=
  let r := MemoryPool.popFreeList this e
  if r.1 ≠ nullptr then Outcome.returned (r.1, r.2, e)
  else if this.curSlot_ = this.lastSlot_ then
    match Throwing.allocateNewBlock this e with
    | Outcome.returned g =>
      Outcome.returned (g.1.curSlot_, { g.1 with curSlot_ := g.1.curSlot_ + g.1.SlotSize_ }, g.2)
    | Outcome.badAlloc e1 => Outcome.badAlloc e1
    | Outcome.undefined => Outcome.undefined
  else
    Outcome.returned (this.curSlot_, { this with curSlot_ := this.curSlot_ + this.SlotSize_ }, e)

/-- The function `HashBucket::useMemory(size_t size)`, lines 59-72, with the throwing
`operator new`: an exception raised on line 64 or inside `allocate()` on line 71 leaves
`useMemory`. -/
def Throwing.useMemory {α : Type} (size : Nat) (hb : HashBucket α) :
    Outcome (Nat × HashBucket α) (HashBucket α) :=
  if size ≤ 0 then
    Outcome.returned (nullptr, hb)
  else if size > MAX_SLOT_SIZE then
    match Throwing.operatorNew size hb.env with
    | Outcome.returned r => Outcome.returned (r.1, { hb with env := r.2 })
    | Outcome.badAlloc e1 => Outcome.badAlloc { hb with env := e1 }
    | Outcome.undefined => Outcome.undefined
  else
    match HashBucket.getMemoryPool (poolIndex size) with
    | none => Outcome.undefined
    | some i =>
      match Throwing.allocate (hb.memoryPool i) (hb.env.log (Event.allocate (poolIndex size))) with
      | Outcome.returned r =>
        Outcome.returned (r.1, { memoryPool := HashBucket.setPool i r.2.1 hb, env := r.2.2 })
      | Outcome.badAlloc e1 => Outcome.badAlloc { hb with env := e1 }
      | Outcome.undefined => Outcome.undefined

/-- The function template `newElement<T>(Args&&... args)`, lines 94-104, with the throwing
`operator new`: an exception that leaves `useMemory` on line 99 leaves `newElement` before
line 101 is reached. -/
def Throwing.newElement {α : Type} (sizeofT : Nat) (args : α) (hb : HashBucket α) :
    Outcome (Nat × HashBucket α) (HashBucket α) :=
  match Throwing.useMemory sizeofT hb with
  | Outcome.returned (p, hb1) =>
    if p ≠ nullptr then
      Outcome.returned (p, { hb1 with env := hb1.env.log (Event.construct p args) })
    else
      Outcome.returned (p, hb1)
  | Outcome.badAlloc hb1 => Outcome.badAlloc hb1
  | Outcome.undefined => Outcome.undefined

open HashBucket

/-- For a pooled size nothing wraps around: the `size_t` expression is `(s + 7) / 8 - 1`. -/
theorem slotIndex_eq (s : Nat) (h1 : 1 ≤ s) (h2 : s ≤ MAX_SLOT_SIZE) :
    slotIndex s = (s + 7) / 8 - 1 := by
  unfold slotIndex SIZE_T_MOD SLOT_BASE_SIZE
  unfold MAX_SLOT_SIZE at h2
  omega

/-- For a pooled size the conversion to `int` keeps the value. -/
theorem poolIndex_eq (s : Nat) (h1 : 1 ≤ s) (h2 : s ≤ MAX_SLOT_SIZE) :
    poolIndex s = (((s + 7) / 8 - 1 : Nat) : Int) := by
  unfold poolIndex toInt INT_MOD
  rw [slotIndex_eq s h1 h2]
  unfold MAX_SLOT_SIZE at h2
  have h3 : ((s + 7) / 8 - 1) % 2 ^ 32 = (s + 7) / 8 - 1 := by omega
  have h4 : (s + 7) / 8 - 1 < 2 ^ 32 / 2 := by omega
  rw [h3, if_pos h4]

/-- For a pooled size `getMemoryPool` is called with the index of a table entry. -/
theorem getMemoryPool_poolIndex (s : Nat) (h1 : 1 ≤ s) (h2 : s ≤ MAX_SLOT_SIZE) :
    ∃ i : Fin MEMORY_POOL_NUM,
      getMemoryPool (poolIndex s) = some i ∧ i.val = (s + 7) / 8 - 1 := by
  have hlt : (s + 7) / 8 - 1 < MEMORY_POOL_NUM := by
    unfold MAX_SLOT_SIZE at h2; unfold MEMORY_POOL_NUM; omega
  refine ⟨⟨(s + 7) / 8 - 1, hlt⟩, ?_, rfl⟩
  rw [poolIndex_eq s h1 h2]
  unfold getMemoryPool
  have hr : (0 : Int) ≤ (((s + 7) / 8 - 1 : Nat) : Int) ∧
      (((s + 7) / 8 - 1 : Nat) : Int) < (MEMORY_POOL_NUM : Int) := by
    constructor
    · omega
    · exact_mod_cast hlt
  rw [dif_pos hr]
  simp

/-- Rounding up the quotient by eight is the division of `s + 7` by eight. -/
theorem ceil_div_eight (s : Nat) : Nat.ceil ((s : ℚ) / 8) = (s + 7) / 8 := by
  have hk1 : s ≤ 8 * ((s + 7) / 8) := by omega
  apply le_antisymm
  · rw [Nat.ceil_le, div_le_iff₀ (by norm_num)]
    have : (s : ℚ) ≤ ((8 * ((s + 7) / 8) : Nat) : ℚ) := by exact_mod_cast hk1
    push_cast at this
    linarith
  · rcases Nat.eq_zero_or_pos ((s + 7) / 8) with h0 | hpos
    · rw [h0]; exact Nat.zero_le _
    · have hk2 : 8 * ((s + 7) / 8 - 1) < s := by omega
      have hlt : (s + 7) / 8 - 1 < Nat.ceil ((s : ℚ) / 8) := by
        rw [Nat.lt_ceil, lt_div_iff₀ (by norm_num)]
        have : ((8 * ((s + 7) / 8 - 1) : Nat) : ℚ) < (s : ℚ) := by exact_mod_cast hk2
        push_cast at this
        linarith
      omega

/-! ## The three paths of `useMemory` and of `freeMemory` -/

/-- Size zero: `useMemory` returns null and changes nothing. -/
theorem useMemory_zero {α : Type} (hb : HashBucket α) :
    useMemory 0 hb = some (nullptr, hb) := by
  unfold useMemory
  rw [if_pos (Nat.le_refl 0)]

/-- Sizes above `MAX_SLOT_SIZE`: `useMemory` returns what `operator new(size)` returns. -/
theorem useMemory_fallback {α : Type} (size : Nat) (h : MAX_SLOT_SIZE < size)
    (hb : HashBucket α) :
    useMemory size hb =
      some ((operatorNew size hb.env).1, { hb with env := (operatorNew size hb.env).2 }) := by
  unfold useMemory
  have h0 : ¬ size ≤ 0 := by unfold MAX_SLOT_SIZE at h; omega
  rw [if_neg h0, if_pos h]

/-- Sizes from 1 to `MAX_SLOT_SIZE`: `useMemory` returns what `allocate` of the selected table
entry returns. -/
theorem useMemory_pool {α : Type} (s : Nat) (h1 : 1 ≤ s) (h2 : s ≤ MAX_SLOT_SIZE)
    (hb : HashBucket α) (i : Fin MEMORY_POOL_NUM) (hi : getMemoryPool (poolIndex s) = some i) :
    useMemory s hb =
      some (((hb.memoryPool i).allocate (hb.env.log (Event.allocate (poolIndex s)))).1,
        { memoryPool := setPool i
            ((hb.memoryPool i).allocate (hb.env.log (Event.allocate (poolIndex s)))).2.1 hb,
          env := ((hb.memoryPool i).allocate (hb.env.log (Event.allocate (poolIndex s)))).2.2 }) := by
  unfold useMemory
  rw [if_neg (by omega), if_neg (by omega), hi]

/-- Non-null pointer, size above `MAX_SLOT_SIZE`: `freeMemory` calls `operator delete`. -/
theorem freeMemory_fallback {α : Type} (ptr size : Nat) (hp : ptr ≠ nullptr)
    (h : MAX_SLOT_SIZE < size) (hb : HashBucket α) :
    freeMemory ptr size hb = some { hb with env := operatorDelete ptr hb.env } := by
  unfold freeMemory
  rw [if_neg hp, if_pos h]

/-- Non-null pointer, size at most `MAX_SLOT_SIZE`, index inside the table: `freeMemory` calls
`deallocate` of the selected table entry. -/
theorem freeMemory_pool {α : Type} (ptr s : Nat) (hp : ptr ≠ nullptr) (h2 : s ≤ MAX_SLOT_SIZE)
    (hb : HashBucket α) (i : Fin MEMORY_POOL_NUM) (hi : getMemoryPool (poolIndex s) = some i) :
    freeMemory ptr s hb =
      some { memoryPool := setPool i
               ((hb.memoryPool i).deallocate ptr
                 (hb.env.log (Event.deallocate (poolIndex s) ptr))).1 hb,
             env := ((hb.memoryPool i).deallocate ptr
                 (hb.env.log (Event.deallocate (poolIndex s) ptr))).2 } := by
  unfold freeMemory
  rw [if_neg hp, if_neg (by omega), hi]

/-- The initialised table entry `i` has slot size `(i + 1) * SLOT_BASE_SIZE`. -/
theorem initMemoryPool_SlotSize {α : Type} (e : Env α) (i : Fin MEMORY_POOL_NUM) :
    ((initMemoryPool e).memoryPool i).SlotSize_ = (i.val + 1) * SLOT_BASE_SIZE := rfl

/-! ## C1: size-class mapping -/

/-- C1: for every size `s` with `1 ≤ s ≤ MAX_SLOT_SIZE`, `useMemory s` calls `allocate` on the
table entry `i` with `i = ((s + 7) / SLOT_BASE_SIZE) - 1` (no wrap-around in `size_t`, no change
by the conversion to `int`), this is `ceil (s / 8) - 1`, it lies in `0 .. MEMORY_POOL_NUM - 1`,
and the slot size `(i + 1) * 8` of that entry is the smallest multiple of 8 that is at least
`s`: `s ≤ (i + 1) * 8`, `i * 8 < s`, and every multiple of 8 that is at least `s` is at least
`(i + 1) * 8`. -/
theorem useMemory_size_class {α : Type} (s : Nat) (h1 : 1 ≤ s) (h2 : s ≤ MAX_SLOT_SIZE)
    (hb : HashBucket α) :
    ∃ i : Fin MEMORY_POOL_NUM,
      getMemoryPool (poolIndex s) = some i ∧
      useMemory s hb =
        some (((hb.memoryPool i).allocate (hb.env.log (Event.allocate (poolIndex s)))).1,
          { memoryPool := setPool i
              ((hb.memoryPool i).allocate (hb.env.log (Event.allocate (poolIndex s)))).2.1 hb,
            env := ((hb.memoryPool i).allocate
              (hb.env.log (Event.allocate (poolIndex s)))).2.2 }) ∧
      poolIndex s = (i.val : Int) ∧
      slotIndex s = i.val ∧
      i.val = (s + 7) / SLOT_BASE_SIZE - 1 ∧
      i.val = Nat.ceil ((s : ℚ) / 8) - 1 ∧
      i.val < MEMORY_POOL_NUM ∧
      ((initMemoryPool hb.env).memoryPool i).SlotSize_ = (i.val + 1) * 8 ∧
      s ≤ (i.val + 1) * 8 ∧
      i.val * 8 < s ∧
      ∀ m : Nat, 8 ∣ m → s ≤ m → (i.val + 1) * 8 ≤ m := by
  obtain ⟨i, hi, hv⟩ := getMemoryPool_poolIndex s h1 h2
  refine ⟨i, hi, useMemory_pool s h1 h2 hb i hi, ?_, ?_, ?_, ?_, i.isLt, ?_, ?_, ?_, ?_⟩
  · rw [poolIndex_eq s h1 h2, hv]
  · rw [slotIndex_eq s h1 h2, hv]
  · rw [hv]; rfl
  · rw [ceil_div_eight, hv]
  · rw [initMemoryPool_SlotSize]; rfl
  · rw [hv]; omega
  · rw [hv]; omega
  · intro m hm hsm
    rw [hv]
    obtain ⟨k, rfl⟩ := hm
    omega

/-- Witness of C1 at the size 9 on the example machine: the entry is 1, with slot size 16. -/
theorem useMemory_size_class_witness :
    1 ≤ 9 ∧ 9 ≤ MAX_SLOT_SIZE ∧
    ∃ i : Fin MEMORY_POOL_NUM,
      getMemoryPool (poolIndex 9) = some i ∧
      useMemory 9 exampleBucket =
        some (((exampleBucket.memoryPool i).allocate
                (exampleBucket.env.log (Event.allocate (poolIndex 9)))).1,
          { memoryPool := setPool i
              ((exampleBucket.memoryPool i).allocate
                (exampleBucket.env.log (Event.allocate (poolIndex 9)))).2.1 exampleBucket,
            env := ((exampleBucket.memoryPool i).allocate
              (exampleBucket.env.log (Event.allocate (poolIndex 9)))).2.2 }) ∧
      poolIndex 9 = (i.val : Int) ∧
      slotIndex 9 = i.val ∧
      i.val = (9 + 7) / SLOT_BASE_SIZE - 1 ∧
      i.val = Nat.ceil (((9 : Nat) : ℚ) / 8) - 1 ∧
      i.val < MEMORY_POOL_NUM ∧
      ((initMemoryPool exampleBucket.env).memoryPool i).SlotSize_ = (i.val + 1) * 8 ∧
      9 ≤ (i.val + 1) * 8 ∧
      i.val * 8 < 9 ∧
      ∀ m : Nat, 8 ∣ m → 9 ≤ m → (i.val + 1) * 8 ≤ m :=
  ⟨by decide, by decide, useMemory_size_class 9 (by decide) (by decide) exampleBucket⟩

/-! ## Calls made by the pool operations -/

/-- The calls since a state whose trace was extended by `xs` are `xs`. -/
theorem callsSince_of_append {α : Type} (hb hb1 : HashBucket α) (xs : List (Event α))
    (h : hb1.env.trace = hb.env.trace ++ xs) : callsSince hb hb1 = xs := by
  unfold callsSince
  rw [h, List.drop_left]

/-- The only call `MemoryPool::allocate` makes is `operator new(BlockSize_)`, and only when the
free list is empty and the current block is used up. -/
theorem MemoryPool.allocate_trace {α : Type} (this : MemoryPool) (e : Env α) :
    (this.allocate e).2.2.trace =
      e.trace ++ (if this.freeList_ = nullptr ∧ this.curSlot_ = this.lastSlot_
                  then [Event.operatorNew this.BlockSize_] else []) := by
  unfold MemoryPool.allocate MemoryPool.popFreeList MemoryPool.allocateNewBlock operatorNew Env.log
  by_cases hf : this.freeList_ = nullptr
  · by_cases hc : this.curSlot_ = this.lastSlot_
    · simp [hf, hc]
    · simp [hf, hc]
  · simp [hf]

/-- The procedure `MemoryPool::deallocate` makes no call. -/
theorem MemoryPool.deallocate_trace {α : Type} (ptr : Nat) (this : MemoryPool) (e : Env α) :
    (this.deallocate ptr e).2.trace = e.trace := rfl

/-- The calls of `useMemory` on the pool path: `allocate` of the selected entry, followed by at
most one `operator new` for a block. -/
theorem useMemory_pool_calls {α : Type} (s : Nat) (h1 : 1 ≤ s) (h2 : s ≤ MAX_SLOT_SIZE)
    (hb : HashBucket α) :
    ∃ (i : Fin MEMORY_POOL_NUM) (p : Nat) (hb1 : HashBucket α),
      getMemoryPool (poolIndex s) = some i ∧ i.val = (s + 7) / 8 - 1 ∧
      useMemory s hb = some (p, hb1) ∧
      callsSince hb hb1 = Event.allocate (poolIndex s) ::
        (if (hb.memoryPool i).freeList_ = nullptr ∧
            (hb.memoryPool i).curSlot_ = (hb.memoryPool i).lastSlot_
         then [Event.operatorNew (hb.memoryPool i).BlockSize_] else []) := by
  obtain ⟨i, hi, hv⟩ := getMemoryPool_poolIndex s h1 h2
  refine ⟨i, _, _, hi, hv, useMemory_pool s h1 h2 hb i hi, ?_⟩
  apply callsSince_of_append
  show ((hb.memoryPool i).allocate (hb.env.log (Event.allocate (poolIndex s)))).2.2.trace = _
  rw [MemoryPool.allocate_trace]
  simp [Env.log]

/-- The call of `useMemory` on the fallback path: `operator new(size)`. -/
theorem useMemory_fallback_calls {α : Type} (size : Nat) (h : MAX_SLOT_SIZE < size)
    (hb : HashBucket α) :
    ∃ (p : Nat) (hb1 : HashBucket α),
      useMemory size hb = some (p, hb1) ∧ callsSince hb hb1 = [Event.operatorNew size] := by
  refine ⟨_, _, useMemory_fallback size h hb, ?_⟩
  apply callsSince_of_append
  rfl

/-! ## C2: fallback boundary -/

/-- C2: for every size, `useMemory` returns, and it takes the pool path (its first call is
`getMemoryPool(index).allocate()`) exactly when `1 ≤ size ≤ 512`, the fallback path (its only
call is `operator new(size)`) exactly when `size > 512`; a size above 512 never reaches a pool,
whatever `size + 7` wraps around to; `useMemory(512)` allocates from the entry 63 and
`useMemory(513)` calls `operator new(513)`. -/
theorem useMemory_routing {α : Type} (size : Nat) (hb : HashBucket α) :
    (∃ (p : Nat) (hb1 : HashBucket α),
      useMemory size hb = some (p, hb1) ∧
      ((∃ rest, callsSince hb hb1 = Event.allocate (poolIndex size) :: rest) ↔
        (1 ≤ size ∧ size ≤ MAX_SLOT_SIZE)) ∧
      (callsSince hb hb1 = [Event.operatorNew size] ↔ MAX_SLOT_SIZE < size) ∧
      ((∃ k, Event.allocate k ∈ callsSince hb hb1) ↔ (1 ≤ size ∧ size ≤ MAX_SLOT_SIZE)) ∧
      ((1 ≤ size ∧ size ≤ MAX_SLOT_SIZE) →
        ∃ i : Fin MEMORY_POOL_NUM, getMemoryPool (poolIndex size) = some i ∧
          i.val = (size + 7) / 8 - 1 ∧
          p = ((hb.memoryPool i).allocate (hb.env.log (Event.allocate (poolIndex size)))).1) ∧
      (MAX_SLOT_SIZE < size → p = (operatorNew size hb.env).1)) ∧
    (∃ i : Fin MEMORY_POOL_NUM, getMemoryPool (poolIndex 512) = some i ∧ i.val = 63 ∧
      useMemory 512 hb =
        some (((hb.memoryPool i).allocate (hb.env.log (Event.allocate 63))).1,
          { memoryPool := setPool i
              ((hb.memoryPool i).allocate (hb.env.log (Event.allocate 63))).2.1 hb,
            env := ((hb.memoryPool i).allocate (hb.env.log (Event.allocate 63))).2.2 })) ∧
    useMemory 513 hb =
      some ((operatorNew 513 hb.env).1, { hb with env := (operatorNew 513 hb.env).2 }) := by
  refine ⟨?_, ?_, ?_⟩
  · rcases Nat.eq_zero_or_pos size with h0 | hpos
    · subst h0
      refine ⟨nullptr, hb, useMemory_zero hb, ?_, ?_, ?_, ?_, ?_⟩
      · simp [callsSince]
      · simp [callsSince, MAX_SLOT_SIZE]
      · simp [callsSince]
      · intro h; omega
      · intro h; unfold MAX_SLOT_SIZE at h; omega
    · by_cases hle : size ≤ MAX_SLOT_SIZE
      · obtain ⟨i, p, hb1, hi, hv, hu, hc⟩ := useMemory_pool_calls size hpos hle hb
        refine ⟨p, hb1, hu, ?_, ?_, ?_, ?_, ?_⟩
        · rw [hc]; simp; omega
        · rw [hc]; simp; omega
        · rw [hc]; simp; omega
        · intro _
          refine ⟨i, hi, hv, ?_⟩
          have hu2 := useMemory_pool size hpos hle hb i hi
          rw [hu] at hu2
          simp only [Option.some.injEq, Prod.mk.injEq] at hu2
          exact hu2.1
        · intro h; omega
      · have hgt : MAX_SLOT_SIZE < size := by omega
        obtain ⟨p, hb1, hu, hc⟩ := useMemory_fallback_calls size hgt hb
        refine ⟨p, hb1, hu, ?_, ?_, ?_, ?_, ?_⟩
        · rw [hc]; simp; omega
        · rw [hc]; simp; omega
        · rw [hc]; simp; omega
        · intro h; omega
        · intro _
          have hu2 := useMemory_fallback size hgt hb
          rw [hu] at hu2
          simp only [Option.some.injEq, Prod.mk.injEq] at hu2
          exact hu2.1
  · have h512 : poolIndex 512 = 63 := by decide
    have hi : getMemoryPool (poolIndex 512) = some ⟨63, by decide⟩ := by decide
    refine ⟨⟨63, by decide⟩, hi, rfl, ?_⟩
    have hu := useMemory_pool 512 (by decide) (by decide) hb ⟨63, by decide⟩ hi
    rw [h512] at hu
    exact hu
  · exact useMemory_fallback 513 (by decide) hb

/-! ## C5: routing symmetry -/

/-- C5: for every size `s ≥ 1` and every non-null `ptr`, `freeMemory(ptr, s)` selects the
destination `useMemory(s)` selects: both take the fallback allocator (`operator delete`,
`operator new`) exactly when `s > 512`, and otherwise both take the table entry with the
identical index `((s + 7) / 8) - 1`. The two calls may be made in different states. -/
theorem freeMemory_useMemory_same_destination {α : Type} (s ptr : Nat) (h1 : 1 ≤ s)
    (hp : ptr ≠ nullptr) (hb hb' : HashBucket α) :
    (MAX_SLOT_SIZE < s ∧
      useMemory s hb =
        some ((operatorNew s hb.env).1, { hb with env := (operatorNew s hb.env).2 }) ∧
      freeMemory ptr s hb' = some { hb' with env := operatorDelete ptr hb'.env }) ∨
    (s ≤ MAX_SLOT_SIZE ∧
      ∃ i : Fin MEMORY_POOL_NUM,
        getMemoryPool (poolIndex s) = some i ∧ i.val = (s + 7) / 8 - 1 ∧
        useMemory s hb =
          some (((hb.memoryPool i).allocate (hb.env.log (Event.allocate (poolIndex s)))).1,
            { memoryPool := setPool i
                ((hb.memoryPool i).allocate (hb.env.log (Event.allocate (poolIndex s)))).2.1 hb,
              env := ((hb.memoryPool i).allocate
                (hb.env.log (Event.allocate (poolIndex s)))).2.2 }) ∧
        freeMemory ptr s hb' =
          some { memoryPool := setPool i
                   ((hb'.memoryPool i).deallocate ptr
                     (hb'.env.log (Event.deallocate (poolIndex s) ptr))).1 hb',
                 env := ((hb'.memoryPool i).deallocate ptr
                     (hb'.env.log (Event.deallocate (poolIndex s) ptr))).2 }) := by
  by_cases hle : s ≤ MAX_SLOT_SIZE
  · right
    obtain ⟨i, hi, hv⟩ := getMemoryPool_poolIndex s h1 hle
    exact ⟨hle, i, hi, hv, useMemory_pool s h1 hle hb i hi, freeMemory_pool ptr s hp hle hb' i hi⟩
  · left
    have hgt : MAX_SLOT_SIZE < s := by omega
    exact ⟨hgt, useMemory_fallback s hgt hb, freeMemory_fallback ptr s hp hgt hb'⟩

/-- Witness of C5 at the size 513 and the pointer 4096 on the example machine. -/
theorem freeMemory_useMemory_same_destination_witness :
    1 ≤ 513 ∧ 4096 ≠ nullptr ∧
    ((MAX_SLOT_SIZE < 513 ∧
      useMemory 513 exampleBucket =
        some ((operatorNew 513 exampleBucket.env).1,
          { exampleBucket with env := (operatorNew 513 exampleBucket.env).2 }) ∧
      freeMemory 4096 513 exampleBucket =
        some { exampleBucket with env := operatorDelete 4096 exampleBucket.env }) ∨
    (513 ≤ MAX_SLOT_SIZE ∧
      ∃ i : Fin MEMORY_POOL_NUM,
        getMemoryPool (poolIndex 513) = some i ∧ i.val = (513 + 7) / 8 - 1 ∧
        useMemory 513 exampleBucket =
          some (((exampleBucket.memoryPool i).allocate
                  (exampleBucket.env.log (Event.allocate (poolIndex 513)))).1,
            { memoryPool := setPool i
                ((exampleBucket.memoryPool i).allocate
                  (exampleBucket.env.log (Event.allocate (poolIndex 513)))).2.1 exampleBucket,
              env := ((exampleBucket.memoryPool i).allocate
                (exampleBucket.env.log (Event.allocate (poolIndex 513)))).2.2 }) ∧
        freeMemory 4096 513 exampleBucket =
          some { memoryPool := setPool i
                   ((exampleBucket.memoryPool i).deallocate 4096
                     (exampleBucket.env.log (Event.deallocate (poolIndex 513) 4096))).1
                   exampleBucket,
                 env := ((exampleBucket.memoryPool i).deallocate 4096
                     (exampleBucket.env.log (Event.deallocate (poolIndex 513) 4096))).2 })) :=
  ⟨by decide, by decide,
    freeMemory_useMemory_same_destination 513 4096 (by decide) (by decide)
      exampleBucket exampleBucket⟩

/-! ## C6: the index `freeMemory` passes to `getMemoryPool` -/

/-- C6, as amended: for every non-null `ptr` and every size with `1 ≤ size ≤ 512`, `freeMemory`
delegates to a pool, and the index it passes to `getMemoryPool`, `((size + 7) / SLOT_BASE_SIZE)
- 1` evaluated in `size_t` and converted to `int`, lies in `0 .. MEMORY_POOL_NUM - 1`: it is the
index of the table entry on which `deallocate(ptr)` is called. -/
theorem freeMemory_index_in_range {α : Type} (ptr s : Nat) (hp : ptr ≠ nullptr) (h1 : 1 ≤ s)
    (h2 : s ≤ MAX_SLOT_SIZE) (hb : HashBucket α) :
    0 ≤ poolIndex s ∧ poolIndex s < (MEMORY_POOL_NUM : Int) ∧
    ∃ i : Fin MEMORY_POOL_NUM,
      getMemoryPool (poolIndex s) = some i ∧ (i.val : Int) = poolIndex s ∧
      freeMemory ptr s hb =
        some { memoryPool := setPool i
                 ((hb.memoryPool i).deallocate ptr
                   (hb.env.log (Event.deallocate (poolIndex s) ptr))).1 hb,
               env := ((hb.memoryPool i).deallocate ptr
                   (hb.env.log (Event.deallocate (poolIndex s) ptr))).2 } := by
  obtain ⟨i, hi, hv⟩ := getMemoryPool_poolIndex s h1 h2
  have hidx : poolIndex s = (i.val : Int) := by rw [poolIndex_eq s h1 h2, hv]
  have hlt : i.val < MEMORY_POOL_NUM := i.isLt
  refine ⟨?_, ?_, i, hi, hidx.symm, freeMemory_pool ptr s hp h2 hb i hi⟩
  · rw [hidx]; exact Int.ofNat_nonneg _
  · rw [hidx]; exact_mod_cast hlt

/-- Witness of the amended C6 at the pointer 4104 and the size 8 on the example machine. -/
theorem freeMemory_index_in_range_witness :
    4104 ≠ nullptr ∧ 1 ≤ 8 ∧ 8 ≤ MAX_SLOT_SIZE ∧
    0 ≤ poolIndex 8 ∧ poolIndex 8 < (MEMORY_POOL_NUM : Int) ∧
    ∃ i : Fin MEMORY_POOL_NUM,
      getMemoryPool (poolIndex 8) = some i ∧ (i.val : Int) = poolIndex 8 ∧
      freeMemory 4104 8 exampleBucket =
        some { memoryPool := setPool i
                 ((exampleBucket.memoryPool i).deallocate 4104
                   (exampleBucket.env.log (Event.deallocate (poolIndex 8) 4104))).1
                 exampleBucket,
               env := ((exampleBucket.memoryPool i).deallocate 4104
                   (exampleBucket.env.log (Event.deallocate (poolIndex 8) 4104))).2 } :=
  ⟨by decide, by decide, by decide,
    freeMemory_index_in_range 4104 8 (by decide) (by decide) (by decide) exampleBucket⟩

/-- C6 as stated fails at size 0: with a non-null pointer `freeMemory` does not take the
fallback path (`0 > 512` is false), so the size 0 is one for which it delegates to a pool; the
expression `((0 + 7) / 8) - 1` wraps around to `2 ^ 64 - 1` in `size_t` and is `-1` as `int`,
which is outside `0 .. 63`: `getMemoryPool` selects no table entry and the call has no defined
result. -/
theorem freeMemory_size_zero_index_out_of_range :
    4104 ≠ nullptr ∧ ¬ (0 > MAX_SLOT_SIZE) ∧
    slotIndex 0 = 2 ^ 64 - 1 ∧
    poolIndex 0 = -1 ∧
    ¬ (0 ≤ poolIndex 0 ∧ poolIndex 0 < (MEMORY_POOL_NUM : Int)) ∧
    getMemoryPool (poolIndex 0) = none ∧
    (freeMemory 4104 0 exampleBucket).isNone = true := by
  refine ⟨by decide, by decide, by decide, by decide, by decide, by decide, ?_⟩
  rfl

/-! ## C7: size zero -/

/-- C7: `useMemory(0)` returns null and leaves the whole state as it is: no call is made, no
pool and no allocator is touched; and 0 is the only size for which `useMemory` returns null
with the state unchanged, or returns null without a call that consults an allocator: for every
other size the first call it makes is `getMemoryPool(index).allocate()` or `operator new`. -/
theorem useMemory_zero_only_null {α : Type} (size : Nat) (hb : HashBucket α) :
    useMemory 0 hb = some (nullptr, hb) ∧
    callsSince hb hb = [] ∧
    (useMemory size hb = some (nullptr, hb) ↔ size = 0) ∧
    ((∃ hb1 : HashBucket α, useMemory size hb = some (nullptr, hb1) ∧
        ∀ ev ∈ callsSince hb hb1, ev.isAllocation = false) ↔ size = 0) ∧
    (size ≠ 0 → ∃ (p : Nat) (hb1 : HashBucket α) (ev : Event α) (rest : List (Event α)),
        useMemory size hb = some (p, hb1) ∧ callsSince hb hb1 = ev :: rest ∧
        ev.isAllocation = true) := by
  have hcalls : ∀ s : Nat, s ≠ 0 →
      ∃ (p : Nat) (hb1 : HashBucket α) (ev : Event α) (rest : List (Event α)),
        useMemory s hb = some (p, hb1) ∧ callsSince hb hb1 = ev :: rest ∧
        ev.isAllocation = true := by
    intro s hs
    by_cases hle : s ≤ MAX_SLOT_SIZE
    · obtain ⟨i, p, hb1, _, _, hu, hc⟩ := useMemory_pool_calls s (by omega) hle hb
      exact ⟨p, hb1, _, _, hu, hc, rfl⟩
    · obtain ⟨p, hb1, hu, hc⟩ := useMemory_fallback_calls s (by omega) hb
      exact ⟨p, hb1, _, _, hu, hc, rfl⟩
  have hself : callsSince hb hb = [] := by simp [callsSince]
  refine ⟨useMemory_zero hb, hself, ?_, ?_, hcalls size⟩
  · constructor
    · intro h
      by_contra hs
      obtain ⟨p, hb1, ev, rest, hu, hc, _⟩ := hcalls size hs
      rw [hu] at h
      simp only [Option.some.injEq, Prod.mk.injEq] at h
      rw [h.2, hself] at hc
      exact List.noConfusion hc
    · intro h
      subst h
      exact useMemory_zero hb
  · constructor
    · rintro ⟨hb1, hu, hno⟩
      by_contra hs
      obtain ⟨p, hb2, ev, rest, hu2, hc, hev⟩ := hcalls size hs
      rw [hu] at hu2
      simp only [Option.some.injEq, Prod.mk.injEq] at hu2
      rw [← hu2.2] at hc
      have := hno ev (by rw [hc]; exact List.mem_cons_self _ _)
      rw [hev] at this
      exact Bool.noConfusion this
    · intro h
      subst h
      exact ⟨hb, useMemory_zero hb, by rw [hself]; intro ev hev; cases hev⟩

/-! ## C8: null pointer -/

/-- C8: for every size, `freeMemory(nullptr, size)` returns with the whole state as it was: the
trace is unchanged, so neither `operator delete` nor any `deallocate` was called, every pool is
unchanged, and the index expression was not evaluated (also for the size 0, where it would
select no table entry). -/
theorem freeMemory_null_noop {α : Type} (size : Nat) (hb : HashBucket α) :
    freeMemory nullptr size hb = some hb ∧ callsSince hb hb = [] := by
  constructor
  · unfold freeMemory
    rw [if_pos rfl]
  · simp [callsSince]

/-! ## The typed helpers -/

/-- Every call of `useMemory` returns, and the calls it makes are `allocate` and
`operator new` only. -/
theorem useMemory_returns {α : Type} (size : Nat) (hb : HashBucket α) :
    ∃ (p : Nat) (hb1 : HashBucket α) (calls : List (Event α)),
      useMemory size hb = some (p, hb1) ∧ hb1.env.trace = hb.env.trace ++ calls ∧
      callsSince hb hb1 = calls ∧
      calls.filter Event.isConstruct = [] ∧ calls.filter Event.isDestruct = [] ∧
      (MAX_SLOT_SIZE < size → calls = [Event.operatorNew size]) ∧
      (1 ≤ size → size ≤ MAX_SLOT_SIZE →
        ∃ rest, calls = Event.allocate (poolIndex size) :: rest) := by
  rcases Nat.eq_zero_or_pos size with h0 | hpos
  · subst h0
    refine ⟨nullptr, hb, [], useMemory_zero hb, by simp, by simp [callsSince], rfl, rfl, ?_, ?_⟩
    · intro h; unfold MAX_SLOT_SIZE at h; omega
    · intro h; omega
  · by_cases hle : size ≤ MAX_SLOT_SIZE
    · obtain ⟨i, hi, _⟩ := getMemoryPool_poolIndex size hpos hle
      have htr : ((hb.memoryPool i).allocate
          (hb.env.log (Event.allocate (poolIndex size)))).2.2.trace =
          hb.env.trace ++ Event.allocate (poolIndex size) ::
            (if (hb.memoryPool i).freeList_ = nullptr ∧
                (hb.memoryPool i).curSlot_ = (hb.memoryPool i).lastSlot_
             then [Event.operatorNew (hb.memoryPool i).BlockSize_] else []) := by
        rw [MemoryPool.allocate_trace]
        simp [Env.log]
      refine ⟨_, _, _, useMemory_pool size hpos hle hb i hi, htr,
        callsSince_of_append _ _ _ htr, ?_, ?_, ?_, ?_⟩
      · split <;> simp [Event.isConstruct]
      · split <;> simp [Event.isDestruct]
      · intro h; omega
      · intro _ _; exact ⟨_, rfl⟩
    · have hgt : MAX_SLOT_SIZE < size := by omega
      have htr : (operatorNew size hb.env).2.trace =
          hb.env.trace ++ [Event.operatorNew size] := rfl
      refine ⟨_, _, _, useMemory_fallback size hgt hb, htr,
        callsSince_of_append _ _ _ htr, rfl, rfl, ?_, ?_⟩
      · intro _; rfl
      · intro _ h; omega

/-- The result of `newElement` in terms of the result of `useMemory`. -/
theorem newElement_of_useMemory {α : Type} (sizeofT : Nat) (args : α) (hb hb1 : HashBucket α)
    (p : Nat) (h : useMemory sizeofT hb = some (p, hb1)) :
    newElement sizeofT args hb =
      some (p, if p ≠ nullptr then { hb1 with env := hb1.env.log (Event.construct p args) }
               else hb1) := by
  unfold newElement
  rw [h]
  by_cases hp : p = nullptr
  · simp [hp]
  · simp [hp]

/-! ## C9: no partial construction -/

/-- C4: for every type with `sizeof(T) ≥ 1` and all constructor arguments, `newElement<T>(args)`
returns some `p`; if `p` is non-null, `deleteElement<T>(p)` returns as well, and the calls of
the two together are: the calls of `useMemory(sizeof(T))`, then `new(p) T(args...)`, then
`p->~T()`, then the release of the storage, which is the call `freeMemory(p, sizeof(T))` makes.
So there is exactly one construction and exactly one destruction, the destructor runs before
the release, and the release goes where the storage came from: `operator delete(p)` after
`operator new(sizeof(T))` when `sizeof(T) > 512`, and otherwise `deallocate(p)` on the table
entry with the index on which `allocate()` was called. -/
theorem newElement_deleteElement_lifecycle {α : Type} (sizeofT : Nat) (h1 : 1 ≤ sizeofT)
    (args : α) (hb : HashBucket α) :
    ∃ (p : Nat) (hb1 hb2 : HashBucket α) (acquire : List (Event α)),
      useMemory sizeofT hb = some (p, hb1) ∧
      callsSince hb hb1 = acquire ∧
      newElement sizeofT args hb = some (p, hb2) ∧
      (p ≠ nullptr → ∃ (hb3 : HashBucket α) (release : Event α),
        deleteElement sizeofT p hb2 = some hb3 ∧
        freeMemory p sizeofT { hb2 with env := hb2.env.log (Event.destruct p) } = some hb3 ∧
        callsSince hb hb3 =
          acquire ++ [Event.construct p args, Event.destruct p, release] ∧
        (callsSince hb hb3).filter Event.isConstruct = [Event.construct p args] ∧
        (callsSince hb hb3).filter Event.isDestruct = [Event.destruct p] ∧
        (MAX_SLOT_SIZE < sizeofT →
          acquire = [Event.operatorNew sizeofT] ∧ release = Event.operatorDelete p) ∧
        (sizeofT ≤ MAX_SLOT_SIZE →
          ∃ (i : Fin MEMORY_POOL_NUM) (rest : List (Event α)),
            getMemoryPool (poolIndex sizeofT) = some i ∧
            acquire = Event.allocate (poolIndex sizeofT) :: rest ∧
            release = Event.deallocate (poolIndex sizeofT) p)) := by
  obtain ⟨p, hb1, calls, hu, htr, hcs, hnc, hnd, hbig, hsmall⟩ := useMemory_returns sizeofT hb
  have hne := newElement_of_useMemory sizeofT args hb hb1 p hu
  refine ⟨p, hb1, _, calls, hu, hcs, hne, ?_⟩
  intro hp
  rw [if_pos hp]
  have hde : ∀ hbx : HashBucket α, deleteElement sizeofT p hbx =
      freeMemory p sizeofT { hbx with env := hbx.env.log (Event.destruct p) } := by
    intro hbx
    unfold deleteElement
    rw [if_pos hp]
  by_cases hle : sizeofT ≤ MAX_SLOT_SIZE
  · obtain ⟨i, hi, _⟩ := getMemoryPool_poolIndex sizeofT h1 hle
    obtain ⟨rest, hrest⟩ := hsmall h1 hle
    have hfree := freeMemory_pool p sizeofT hp hle
      ({ ({ hb1 with env := hb1.env.log (Event.construct p args) } : HashBucket α) with
          env := Env.log (Event.destruct p) (hb1.env.log (Event.construct p args)) }) i hi
    refine ⟨_, Event.deallocate (poolIndex sizeofT) p, ?_, hfree, ?_, ?_, ?_, ?_, ?_⟩
    · rw [hde]; exact hfree
    · apply callsSince_of_append
      show ((hb1.env.trace ++ [Event.construct p args]) ++ [Event.destruct p]) ++
        [Event.deallocate (poolIndex sizeofT) p] = _
      rw [htr]; simp
    · rw [callsSince_of_append hb _
        (calls ++ [Event.construct p args, Event.destruct p,
          Event.deallocate (poolIndex sizeofT) p])]
      · rw [List.filter_append, hnc]; rfl
      · show ((hb1.env.trace ++ [Event.construct p args]) ++ [Event.destruct p]) ++
          [Event.deallocate (poolIndex sizeofT) p] = _
        rw [htr]; simp
    · rw [callsSince_of_append hb _
        (calls ++ [Event.construct p args, Event.destruct p,
          Event.deallocate (poolIndex sizeofT) p])]
      · rw [List.filter_append, hnd]; rfl
      · show ((hb1.env.trace ++ [Event.construct p args]) ++ [Event.destruct p]) ++
          [Event.deallocate (poolIndex sizeofT) p] = _
        rw [htr]; simp
    · intro h; omega
    · intro _; exact ⟨i, rest, hi, hrest, rfl⟩
  · have hgt : MAX_SLOT_SIZE < sizeofT := by omega
    have hfree := freeMemory_fallback p sizeofT hp hgt
      ({ ({ hb1 with env := hb1.env.log (Event.construct p args) } : HashBucket α) with
          env := Env.log (Event.destruct p) (hb1.env.log (Event.construct p args)) })
    refine ⟨_, Event.operatorDelete p, ?_, hfree, ?_, ?_, ?_, ?_, ?_⟩
    · rw [hde]; exact hfree
    · apply callsSince_of_append
      show ((hb1.env.trace ++ [Event.construct p args]) ++ [Event.destruct p]) ++
        [Event.operatorDelete p] = _
      rw [htr]; simp
    · rw [callsSince_of_append hb _
        (calls ++ [Event.construct p args, Event.destruct p, Event.operatorDelete p])]
      · rw [List.filter_append, hnc]; rfl
      · show ((hb1.env.trace ++ [Event.construct p args]) ++ [Event.destruct p]) ++
          [Event.operatorDelete p] = _
        rw [htr]; simp
    · rw [callsSince_of_append hb _
        (calls ++ [Event.construct p args, Event.destruct p, Event.operatorDelete p])]
      · rw [List.filter_append, hnd]; rfl
      · show ((hb1.env.trace ++ [Event.construct p args]) ++ [Event.destruct p]) ++
          [Event.operatorDelete p] = _
        rw [htr]; simp
    · intro _; exact ⟨hbig hgt, rfl⟩
    · intro h; omega

/-- Witness of C4 at an 8-byte type on the example machine: `newElement` returns the non-null
address 4104, and the lifecycle goes through the table entry 0. -/
theorem newElement_deleteElement_lifecycle_witness :
    1 ≤ 8 ∧
    ∃ (p : Nat) (hb1 hb2 : HashBucket Nat) (acquire : List (Event Nat)),
      useMemory 8 exampleBucket = some (p, hb1) ∧
      callsSince exampleBucket hb1 = acquire ∧
      newElement 8 7 exampleBucket = some (p, hb2) ∧
      p = 4104 ∧ p ≠ nullptr ∧
      ∃ (hb3 : HashBucket Nat) (release : Event Nat),
        deleteElement 8 p hb2 = some hb3 ∧
        freeMemory p 8 { hb2 with env := hb2.env.log (Event.destruct p) } = some hb3 ∧
        callsSince exampleBucket hb3 =
          acquire ++ [Event.construct p 7, Event.destruct p, release] ∧
        (callsSince exampleBucket hb3).filter Event.isConstruct = [Event.construct p 7] ∧
        (callsSince exampleBucket hb3).filter Event.isDestruct = [Event.destruct p] ∧
        (MAX_SLOT_SIZE < 8 →
          acquire = [Event.operatorNew 8] ∧ release = Event.operatorDelete p) ∧
        (8 ≤ MAX_SLOT_SIZE →
          ∃ (i : Fin MEMORY_POOL_NUM) (rest : List (Event Nat)),
            getMemoryPool (poolIndex 8) = some i ∧
            acquire = Event.allocate (poolIndex 8) :: rest ∧
            release = Event.deallocate (poolIndex 8) p) := by
  refine ⟨by decide, ?_⟩
  obtain ⟨p, hb1, hb2, acquire, hu, hc, hn, hrest⟩ :=
    newElement_deleteElement_lifecycle 8 (by decide) (7 : Nat) exampleBucket
  have hp : p = 4104 := by
    have h := congrArg (Option.map Prod.fst) hu
    have h2 : Option.map Prod.fst (useMemory 8 exampleBucket) = some 4104 := rfl
    rw [h2] at h
    simpa using h.symm
  have hpn : p ≠ nullptr := by rw [hp]; decide
  exact ⟨p, hb1, hb2, acquire, hu, hc, hn, hp, hpn, hrest hpn⟩

/-! ## The pool between two calls -/

/-- A pool that just took back the non-null slot `p` hands out `p` at the next `allocate`, from
its free list, and is afterwards the pool it was before it took `p` back; the machine outside
the pool is not touched. -/
theorem MemoryPool.allocate_after_deallocate {α : Type} (this : MemoryPool) (e : Env α)
    (p : Nat) (hp : p ≠ nullptr) (ev : Event α) :
    ((this.deallocate p e).1.popFreeList ((this.deallocate p e).2.log ev)).1 = p ∧
    (this.deallocate p e).1.allocate ((this.deallocate p e).2.log ev) =
      (p, this, (this.deallocate p e).2.log ev) := by
  unfold MemoryPool.allocate MemoryPool.popFreeList MemoryPool.deallocate
    MemoryPool.pushFreeList Env.log
  simp [hp]

/-- With a cursor that is null only before the first block, `allocate` returns a non-null
address and leaves such a cursor. -/
theorem MemoryPool.allocate_cursor {α : Type} (this : MemoryPool) (e : Env α)
    (h : this.curSlot_ = nullptr → this.lastSlot_ = nullptr) :
    (this.allocate e).1 ≠ nullptr ∧
    ((this.allocate e).2.1.curSlot_ = nullptr → (this.allocate e).2.1.lastSlot_ = nullptr) := by
  unfold MemoryPool.allocate MemoryPool.popFreeList MemoryPool.allocateNewBlock operatorNew
  unfold nullptr at *
  by_cases hf : this.freeList_ = 0
  · by_cases hc : this.curSlot_ = this.lastSlot_
    · simp [hf, hc, SLOT_ALIGN]
    · have hne : this.curSlot_ ≠ 0 := fun h0 => hc (by rw [h0, h h0])
      simp [hf, hc, hne]
  · simp [hf]
    exact h

/-- The procedure `deallocate` changes the head of the free list only. -/
theorem MemoryPool.deallocate_cursor {α : Type} (this : MemoryPool) (e : Env α) (p : Nat) :
    (this.deallocate p e).1.curSlot_ = this.curSlot_ ∧
    (this.deallocate p e).1.lastSlot_ = this.lastSlot_ := ⟨rfl, rfl⟩

/-- The cursor property is kept by `useMemory`. -/
theorem useMemory_cursor {α : Type} (size p : Nat) (hb hb1 : HashBucket α)
    (h : ∀ i, (hb.memoryPool i).curSlot_ = nullptr → (hb.memoryPool i).lastSlot_ = nullptr)
    (hu : useMemory size hb = some (p, hb1)) :
    ∀ i, (hb1.memoryPool i).curSlot_ = nullptr → (hb1.memoryPool i).lastSlot_ = nullptr := by
  rcases Nat.eq_zero_or_pos size with h0 | hpos
  · subst h0
    rw [useMemory_zero] at hu
    simp only [Option.some.injEq, Prod.mk.injEq] at hu
    rw [← hu.2]; exact h
  · by_cases hle : size ≤ MAX_SLOT_SIZE
    · obtain ⟨i, hi, _⟩ := getMemoryPool_poolIndex size hpos hle
      rw [useMemory_pool size hpos hle hb i hi] at hu
      simp only [Option.some.injEq, Prod.mk.injEq] at hu
      rw [← hu.2]
      intro j
      show (setPool i _ hb j).curSlot_ = nullptr → (setPool i _ hb j).lastSlot_ = nullptr
      unfold setPool
      by_cases hj : j = i
      · rw [if_pos hj]
        exact (MemoryPool.allocate_cursor _ _ (h i)).2
      · rw [if_neg hj]
        exact h j
    · rw [useMemory_fallback size (by omega) hb] at hu
      simp only [Option.some.injEq, Prod.mk.injEq] at hu
      rw [← hu.2]; exact h

/-- The cursor property is kept by `freeMemory`. -/
theorem freeMemory_cursor {α : Type} (ptr size : Nat) (hb hb1 : HashBucket α)
    (h : ∀ i, (hb.memoryPool i).curSlot_ = nullptr → (hb.memoryPool i).lastSlot_ = nullptr)
    (hu : freeMemory ptr size hb = some hb1) :
    ∀ i, (hb1.memoryPool i).curSlot_ = nullptr → (hb1.memoryPool i).lastSlot_ = nullptr := by
  unfold freeMemory at hu
  by_cases hp : ptr = nullptr
  · rw [if_pos hp] at hu
    simp only [Option.some.injEq] at hu
    rw [← hu]; exact h
  · rw [if_neg hp] at hu
    by_cases hgt : size > MAX_SLOT_SIZE
    · rw [if_pos hgt] at hu
      simp only [Option.some.injEq] at hu
      rw [← hu]; exact h
    · rw [if_neg hgt] at hu
      cases hg : getMemoryPool (poolIndex size) with
      | none => rw [hg] at hu; cases hu
      | some i =>
        rw [hg] at hu
        simp only [Option.some.injEq] at hu
        rw [← hu]
        intro j
        show (setPool i _ hb j).curSlot_ = nullptr → (setPool i _ hb j).lastSlot_ = nullptr
        unfold setPool
        by_cases hj : j = i
        · rw [if_pos hj]
          exact h i
        · rw [if_neg hj]
          exact h j

/-- In every reachable state the cursor of every pool is null only before its first block. -/
theorem reachable_cursor {α : Type} {hb : HashBucket α} (hr : Reachable hb) :
    ∀ i, (hb.memoryPool i).curSlot_ = nullptr → (hb.memoryPool i).lastSlot_ = nullptr := by
  induction hr with
  | init e => intro i _; rfl
  | useMemory _ hu ih => exact useMemory_cursor _ _ _ _ ih hu
  | freeMemory _ hu ih => exact freeMemory_cursor _ _ _ _ ih hu
  | @newElement hb0 hb1 sizeofT p args _ hu ih =>
    obtain ⟨q, hbm, _, hum, _⟩ := useMemory_returns sizeofT hb0
    have hc := useMemory_cursor _ _ _ _ ih hum
    rw [newElement_of_useMemory sizeofT args hb0 hbm q hum] at hu
    simp only [Option.some.injEq, Prod.mk.injEq] at hu
    rw [← hu.2]
    split
    · exact hc
    · exact hc
  | @deleteElement hb0 hb1 sizeofT p _ hu ih =>
    unfold deleteElement at hu
    by_cases hp : p ≠ nullptr
    · rw [if_pos hp] at hu
      exact freeMemory_cursor p sizeofT { hb0 with env := hb0.env.log (Event.destruct p) } hb1
        ih hu
    · rw [if_neg hp] at hu
      simp only [Option.some.injEq] at hu
      rw [← hu]; exact ih

/-! ## C3: round trip -/

/-- C3: in every reachable state and for every size `s` with `1 ≤ s ≤ 512`, the call
`p = useMemory(s)` returns a non-null slot of the table entry `((s + 7) / 8) - 1`,
`freeMemory(p, s)` returns, and the next `useMemory(s)` returns the same `p`: it is the head
of the free list of that entry, the only call made is `allocate()` on that entry (no
`operator new`, so no new block), and the pool table is afterwards what it was before the
`freeMemory`, so the block cursor `curSlot_`, the end marker `lastSlot_` and the block chain
`firstBlock_` of the entry have not moved. -/
theorem useMemory_freeMemory_round_trip {α : Type} (s : Nat) (h1 : 1 ≤ s)
    (h2 : s ≤ MAX_SLOT_SIZE) (hb : HashBucket α) (hr : Reachable hb) :
    ∃ (i : Fin MEMORY_POOL_NUM) (p : Nat) (hb1 hb2 hb3 : HashBucket α),
      getMemoryPool (poolIndex s) = some i ∧ i.val = (s + 7) / 8 - 1 ∧
      useMemory s hb = some (p, hb1) ∧
      p ≠ nullptr ∧
      freeMemory p s hb1 = some hb2 ∧
      (hb2.memoryPool i).freeList_ = p ∧
      ((hb2.memoryPool i).popFreeList (hb2.env.log (Event.allocate (poolIndex s)))).1 = p ∧
      useMemory s hb2 = some (p, hb3) ∧
      callsSince hb2 hb3 = [Event.allocate (poolIndex s)] ∧
      hb3.env.newCalls = hb2.env.newCalls ∧
      (hb3.memoryPool i).curSlot_ = (hb2.memoryPool i).curSlot_ ∧
      (hb3.memoryPool i).lastSlot_ = (hb2.memoryPool i).lastSlot_ ∧
      (hb3.memoryPool i).firstBlock_ = (hb2.memoryPool i).firstBlock_ ∧
      hb3.memoryPool = hb1.memoryPool := by
  obtain ⟨i, hi, hv⟩ := getMemoryPool_poolIndex s h1 h2
  have hcur := reachable_cursor hr i
  have hu1 := useMemory_pool s h1 h2 hb i hi
  have hp := (MemoryPool.allocate_cursor (hb.memoryPool i)
    (hb.env.log (Event.allocate (poolIndex s))) hcur).1
  generalize ((hb.memoryPool i).allocate (hb.env.log (Event.allocate (poolIndex s)))) = r
    at hu1 hp
  obtain ⟨p, pool1, e1⟩ := r
  simp only at hu1 hp
  have hf := freeMemory_pool p s hp h2 { memoryPool := setPool i pool1 hb, env := e1 } i hi
  have hpool1 : (setPool i pool1 hb) i = pool1 := by simp [setPool]
  simp only [hpool1] at hf
  have had := MemoryPool.allocate_after_deallocate pool1
    (e1.log (Event.deallocate (poolIndex s) p)) p hp (Event.allocate (poolIndex s))
  generalize hd : pool1.deallocate p (e1.log (Event.deallocate (poolIndex s) p)) = d
    at hf had
  obtain ⟨pool2, e2⟩ := d
  simp only at hf had
  have hfl : pool2.freeList_ = p := by
    have := congrArg (fun x => x.1.freeList_) hd
    simpa [MemoryPool.deallocate, MemoryPool.pushFreeList] using this.symm
  have hcl : pool2.curSlot_ = pool1.curSlot_ ∧ pool2.lastSlot_ = pool1.lastSlot_ ∧
      pool2.firstBlock_ = pool1.firstBlock_ := by
    have := congrArg (fun x => x.1) hd
    simp only [MemoryPool.deallocate, MemoryPool.pushFreeList] at this
    rw [← this]
    exact ⟨rfl, rfl, rfl⟩
  have hu3 := useMemory_pool s h1 h2
    { memoryPool := setPool i pool2 { memoryPool := setPool i pool1 hb, env := e1 },
      env := e2 } i hi
  have hpool2 : (setPool i pool2 ({ memoryPool := setPool i pool1 hb, env := e1 } :
      HashBucket α)) i = pool2 := by simp [setPool]
  simp only [hpool2, had.2] at hu3
  refine ⟨i, p, _, _, _, hi, hv, hu1, hp, hf, ?_, ?_, hu3, ?_, rfl, ?_, ?_, ?_, ?_⟩
  · show (setPool i pool2 _ i).freeList_ = p
    rw [hpool2, hfl]
  · show ((setPool i pool2 _ i).popFreeList _).1 = p
    rw [hpool2]
    exact had.1
  · apply callsSince_of_append
    rfl
  · show (setPool i pool1 _ i).curSlot_ = (setPool i pool2 _ i).curSlot_
    simp only [setPool, if_true]
    exact hcl.1.symm
  · show (setPool i pool1 _ i).lastSlot_ = (setPool i pool2 _ i).lastSlot_
    simp only [setPool, if_true]
    exact hcl.2.1.symm
  · show (setPool i pool1 _ i).firstBlock_ = (setPool i pool2 _ i).firstBlock_
    simp only [setPool, if_true]
    exact hcl.2.2.symm
  · funext j
    show setPool i pool1 _ j = setPool i pool1 hb j
    unfold setPool
    by_cases hj : j = i
    · simp [hj]
    · simp [hj]

/-- Witness of C3 at the size 8 in the state right after `initMemoryPool` on the example
machine. -/
theorem useMemory_freeMemory_round_trip_witness :
    1 ≤ 8 ∧ 8 ≤ MAX_SLOT_SIZE ∧ Reachable exampleBucket ∧
    ∃ (i : Fin MEMORY_POOL_NUM) (p : Nat) (hb1 hb2 hb3 : HashBucket Nat),
      getMemoryPool (poolIndex 8) = some i ∧ i.val = (8 + 7) / 8 - 1 ∧
      useMemory 8 exampleBucket = some (p, hb1) ∧
      p ≠ nullptr ∧
      freeMemory p 8 hb1 = some hb2 ∧
      (hb2.memoryPool i).freeList_ = p ∧
      ((hb2.memoryPool i).popFreeList (hb2.env.log (Event.allocate (poolIndex 8)))).1 = p ∧
      useMemory 8 hb2 = some (p, hb3) ∧
      callsSince hb2 hb3 = [Event.allocate (poolIndex 8)] ∧
      hb3.env.newCalls = hb2.env.newCalls ∧
      (hb3.memoryPool i).curSlot_ = (hb2.memoryPool i).curSlot_ ∧
      (hb3.memoryPool i).lastSlot_ = (hb2.memoryPool i).lastSlot_ ∧
      (hb3.memoryPool i).firstBlock_ = (hb2.memoryPool i).firstBlock_ ∧
      hb3.memoryPool = hb1.memoryPool :=
  ⟨by decide, by decide, Reachable.init exampleEnv,
    useMemory_freeMemory_round_trip 8 (by decide) (by decide) exampleBucket
      (Reachable.init exampleEnv)⟩

end Kama_memoryPool
